import Mathlib

/-!
Verification development for the phishing-message detector
(src/phishing_detector.py).  The Python source is shallowly embedded:
strings are Lean `String` / `List Char`, Python floats (all small decimal
weights) are `ℚ`, dictionaries are association lists, and every loop is a
structural recursion over the list it iterates.
-/

namespace Phishing

/-- Characters of a message, the working representation of Python `str`
inside the analyzers. -/
abbrev Str := List Char

/-- Models Python `str.lower()` for the ASCII inputs the detector handles:
`Char.toLower` lowers exactly the ASCII uppercase letters. -/
def lowerStr (s : Str) : Str := s.map Char.toLower

/-- Python `needle in hay` on strings: contiguous substring containment. -/
def isSubstrOf (needle : Str) : Str → Bool
  | [] => needle.isEmpty
  | c :: rest => needle.isPrefixOf (c :: rest) || isSubstrOf needle rest

/-! ## Sender-pattern regexes

`analyze_headers` runs `re.search(pattern, headers['from'], re.I)` for each
entry of `self.suspicious_sender_patterns`.  Each of those fifteen regexes
uses only literals, the classes `[_-]` / `[._-]` / `[a-zA-Z0-9]` / `\d`, the
quantifiers `?`, `*`, `+`, `{4,}`, and an optional leading `^` anchor.  We
embed each one as an executable matcher on the lower-cased subject (lowering
the subject and writing the literals in lower case realises `re.I` for the
ASCII data these patterns describe).  The combinators below implement full
backtracking: a star tries every split point, an optional class tries both
consuming and not consuming, so a combinator match exists exactly when the
regex matches. -/

/-- Continuation that accepts anything (the empty regex tail). -/
def trueK : Str → Bool := fun _ => true

/-- Match a literal string, then continue. -/
def litP (w : Str) (k : Str → Bool) (l : Str) : Bool :=
  w.isPrefixOf l && k (l.drop w.length)

/-- `[c₁c₂…]?` — optionally consume one character from `cs`, then continue;
tries the consuming branch and the empty branch (backtracking). -/
def optCharOf (cs : List Char) (k : Str → Bool) (l : Str) : Bool :=
  (match l with
   | c :: rest => if c ∈ cs then k rest else false
   | [] => false) || k l

/-- `\d*` followed by the continuation, trying every split point. -/
def digitsStar (k : Str → Bool) : Str → Bool
  | [] => k []
  | c :: cs => if c.isDigit then digitsStar k cs || k (c :: cs) else k (c :: cs)

/-- `\d+` followed by the continuation. -/
def digitsPlus (k : Str → Bool) : Str → Bool
  | [] => false
  | c :: cs => c.isDigit && digitsStar k cs

/-- `[a-zA-Z0-9]*` followed by the continuation, trying every split point. -/
def alnumStar (k : Str → Bool) : Str → Bool
  | [] => k []
  | c :: cs => if c.isAlphanum then alnumStar k cs || k (c :: cs) else k (c :: cs)

/-- `[a-zA-Z0-9]+` followed by the continuation. -/
def alnumPlus (k : Str → Bool) : Str → Bool
  | [] => false
  | c :: cs => c.isAlphanum && alnumStar k cs

/-- `\d{4,}` followed by the continuation: four digits, then `\d*`. -/
def digitsFourPlus (k : Str → Bool) : Str → Bool
  | a :: b :: c :: d :: rest =>
    a.isDigit && b.isDigit && c.isDigit && d.isDigit && digitsStar k rest
  | _ => false

/-- `re.search` semantics for an unanchored pattern: try the pattern at
every suffix of the subject (including the empty suffix at the end). -/
def searchP (p : Str → Bool) (l : Str) : Bool := l.tails.any p

/-- The separators of the class `[._-]`. -/
def sepDot : List Char := ['.', '_', '-']

/-- The separators of the class `[_-]`. -/
def sepPlain : List Char := ['_', '-']

/-- The list `self.suspicious_sender_patterns` from `__init__`: each entry
pairs the Python regex source text (used verbatim in the recorded reason)
with its embedded matcher, in definition order. -/
def suspicious_sender_patterns : List (String × (Str → Bool)) :=
  [ ("^\\d+@",
      digitsPlus (litP ['@'] trueK)),
    ("[a-zA-Z0-9]+\\d{4,}@",
      searchP (alnumPlus (digitsFourPlus (litP ['@'] trueK)))),
    ("security[_-]?alert",
      searchP (litP "security".toList (optCharOf sepPlain (litP "alert".toList trueK)))),
    ("account[_-]?verify",
      searchP (litP "account".toList (optCharOf sepPlain (litP "verify".toList trueK)))),
    ("support[_-]?\\d+",
      searchP (litP "support".toList (optCharOf sepPlain (digitsPlus trueK)))),
    ("fiverr[._-]?support\\d*@",
      searchP (litP "fiverr".toList (optCharOf sepDot
        (litP "support".toList (digitsStar (litP ['@'] trueK)))))),
    ("fiverr[._-]?security@",
      searchP (litP "fiverr".toList (optCharOf sepDot (litP "security@".toList trueK)))),
    ("fiverr[._-]?payment@",
      searchP (litP "fiverr".toList (optCharOf sepDot (litP "payment@".toList trueK)))),
    ("fiverr[._-]?verify@",
      searchP (litP "fiverr".toList (optCharOf sepDot (litP "verify@".toList trueK)))),
    ("fiverr[._-]?team@",
      searchP (litP "fiverr".toList (optCharOf sepDot (litP "team@".toList trueK)))),
    ("admin[._-]?fiverr@",
      searchP (litP "admin".toList (optCharOf sepDot (litP "fiverr@".toList trueK)))),
    ("support[._-]?team[._-]?\\d*@",
      searchP (litP "support".toList (optCharOf sepDot
        (litP "team".toList (optCharOf sepDot (digitsStar (litP ['@'] trueK))))))),
    ("verification[._-]?team@",
      searchP (litP "verification".toList (optCharOf sepDot (litP "team@".toList trueK)))),
    ("payment[._-]?support@",
      searchP (litP "payment".toList (optCharOf sepDot (litP "support@".toList trueK)))),
    ("account[._-]?security@",
      searchP (litP "account".toList (optCharOf sepDot (litP "security@".toList trueK)))) ]

/-- The keyword→weight table `self.suspicious_keywords` from `__init__`,
in definition (insertion) order. -/
def suspicious_keywords : List (String × ℚ) :=
  [ ("urgent", 0.3),
    ("account suspended", 0.4),
    ("verify your account", 0.4),
    ("login attempt", 0.3),
    ("unusual activity", 0.3),
    ("password expired", 0.4),
    ("security alert", 0.3),
    ("click here", 0.2),
    ("confirm identity", 0.4),
    ("unusual login", 0.3),
    ("limited time", 0.2),
    ("account closure", 0.4),
    ("suspicious activity", 0.4),
    ("external payment", 0.8),
    ("paypal only", 0.7),
    ("western union", 0.8),
    ("direct payment", 0.7),
    ("contact outside", 0.6),
    ("whatsapp", 0.5),
    ("telegram", 0.5),
    ("bonus offer", 0.4),
    ("special promotion", 0.4),
    ("fiverr support team", 0.5),
    ("account verification required", 0.6),
    ("order completed", 0.4),
    ("payment pending", 0.4),
    ("urgent payment", 0.6),
    ("refund processing", 0.5),
    ("additional fee", 0.5),
    ("cryptocurrency", 0.7),
    ("bitcoin payment", 0.8),
    ("private email", 0.6),
    ("skype chat", 0.5) ]

/-- The suspicious-TLD list `self.suspicious_tlds` from `__init__`. -/
def suspicious_tlds : List String :=
  [ ".tk", ".ml", ".ga", ".cf", ".gq",
    ".zip", ".review", ".country", ".kim", ".science",
    ".work", ".party", ".gdn", ".stream", ".download" ]

/-- The detector object: `__init__` stores the three rule tables on `self`;
no method ever writes to them afterwards. -/
structure PhishingDetector where
  suspicious_keywords : List (String × ℚ)
  suspicious_tlds : List String
  suspicious_sender_patterns : List (String × (Str → Bool))

/-- `PhishingDetector()` — the constructor populating the rule tables. -/
def PhishingDetector.init : PhishingDetector :=
  { suspicious_keywords := Phishing.suspicious_keywords,
    suspicious_tlds := Phishing.suspicious_tlds,
    suspicious_sender_patterns := Phishing.suspicious_sender_patterns }

/-! ## URL extraction

`analyze_urls` begins with
`re.findall(r'http[s]?://(?:[a-zA-Z]|[0-9]|[$-_@.&+]|[!*\\(\\),]|(?:%[0-9a-fA-F][0-9a-fA-F]))+', text)`.
The alternation after `://` is a plain character set: `[$-_@.&+]` is the
range `$`..`_` (codes 36–95, which already contains the digits, the upper
case letters, `%`, `@`, `.`, `&` and `+`), `[!*\\(\\),]` adds `!` and five
characters already inside that range, and the `%hh` alternative is made of
characters each individually in the set, so one greedy run of single
characters matches exactly what the regex group matches. -/

/-- A character admitted by the regex body after the scheme. -/
def isUrlChar (c : Char) : Bool :=
  (('a' ≤ c && c ≤ 'z') || ('A' ≤ c && c ≤ 'Z'))
  || ('0' ≤ c && c ≤ '9')
  || (36 ≤ c.toNat && c.toNat ≤ 95)
  || (c == '!')

/-- Try the whole URL regex anchored at the start of `l`; on success return
the matched text and the remainder.  `http` is matched literally, then
`[s]?://`: the branch consuming `s` and the branch not consuming it start
with different characters (`s` vs `:`), so testing them in order is exactly
the regex's backtracking.  The body then takes the greedy maximal run of
admitted characters, which must be non-empty (`+`). -/
def matchUrlAt (l : Str) : Option (Str × Str) :=
  match l with
  | 'h' :: 't' :: 't' :: 'p' :: rest =>
    let schemed : Option (Str × Str) :=
      match rest with
      | 's' :: ':' :: '/' :: '/' :: r => some (['h','t','t','p','s',':','/','/'], r)
      | ':' :: '/' :: '/' :: r => some (['h','t','t','p',':','/','/'], r)
      | _ => none
    match schemed with
    | none => none
    | some (pre, r) =>
      let run := r.span isUrlChar
      if run.1.isEmpty then none else some (pre ++ run.1, run.2)
  | _ => none

/-- `re.findall` scanning: left to right, at each position try the pattern;
on a match emit it and resume after it, otherwise advance one character.
Fuel-driven (the fuel is the length of the scanned text, and every step
consumes at least one character, so the fuel never runs out). -/
def findUrlsFrom : Nat → Str → List Str
  | 0, _ => []
  | _ + 1, [] => []
  | fuel + 1, c :: cs =>
    match matchUrlAt (c :: cs) with
    | some (m, rest) => m :: findUrlsFrom fuel rest
    | none => findUrlsFrom fuel cs

/-- All URLs of the text, in order of first appearance. -/
def findUrls (text : String) : List Str :=
  findUrlsFrom text.toList.length text.toList

/-- `urllib.parse.urlparse(url).netloc` for the http/https URLs this
detector extracts: the authority starts right after the first `//` and runs
up to the next `/`, `?` or `#`. -/
def dropToAuthority : Str → Str
  | '/' :: '/' :: rest => rest
  | _ :: rest => dropToAuthority rest
  | [] => []

/-- End-of-netloc delimiters of `urlparse`. -/
def netlocEnd (c : Char) : Bool := c == '/' || c == '?' || c == '#'

/-- The candidate `netloc` of an extracted URL, as `_splitnetloc` computes
it (total; `urlsplit`'s ValueError checks run on this candidate and are
modeled by `urlparseNetloc` below). -/
def netlocOf (url : Str) : Str :=
  (dropToAuthority url).takeWhile (fun c => !netlocEnd c)

/-! ### urlsplit's ValueError behavior (CPython 3.11)

The extraction regex admits `[` and `]` (code points 91 and 93 lie in the
class range `$`–`_`), and `urlsplit` raises `ValueError` on such netlocs:
a `[` without `]` (or vice versa) is "Invalid IPv6 URL", and a netloc
containing both sends the text between the first `[` and the following
`]` to `_check_bracketed_host`, which accepts only an RFC 6874 IPvFuture
shape or a valid IPv6 address (per the `ipaddress` module's textual
parser).  `analyze_urls` calls `urlparse` unguarded, so the exception
propagates to the caller of `analyze_message`.  The validators below
transcribe `_check_bracketed_host`, `_split_scope_id`,
`IPv4Address._parse_octet` / `_ip_int_from_string` and
`IPv6Address._parse_hextet` / `_ip_int_from_string`.  Netlocs of extracted
URLs are ASCII without whitespace or newlines, so `str.isdigit` under
`isascii` is ASCII digits and the regex dot never meets a newline. -/

/-- ASCII hexadecimal digit (the `ipaddress` module's `_HEX_DIGITS`). -/
def isHexDig (c : Char) : Bool :=
  c.isDigit || ('a' ≤ c && c ≤ 'f') || ('A' ≤ c && c ≤ 'F')

/-- Python `s.split(sep)` for a one-character separator: splits on every
occurrence, keeping empty parts; never returns the empty list. -/
def splitOn (sep : Char) : Str → List Str
  | [] => [[]]
  | c :: cs =>
    let r := splitOn sep cs
    if c = sep then [] :: r
    else
      match r with
      | [] => [[c]]
      | p :: ps => (c :: p) :: ps

/-- `s.partition(c)[2]`: everything after the first `c`; empty when `c`
does not occur. -/
def afterFirst (c : Char) : Str → Str
  | [] => []
  | x :: xs => if x = c then xs else afterFirst c xs

/-- `s.partition(c)[0]`: everything before the first `c`; all of `s` when
`c` does not occur. -/
def upToFirst (c : Char) : Str → Str
  | [] => []
  | x :: xs => if x = c then [] else x :: upToFirst c xs

/-- Numeric value of a decimal-digit string. -/
def decVal (s : Str) : Nat := s.foldl (fun a c => a * 10 + (c.toNat - 48)) 0

/-- `IPv4Address._parse_octet`: nonempty, ASCII decimal digits only, at
most three characters, no leading zero except for "0" itself, value at
most 255. -/
def validOctet (s : Str) : Bool :=
  match s with
  | [] => false
  | c :: rest =>
    (c :: rest).all Char.isDigit && rest.length ≤ 2 &&
      (!(c == '0') || rest.isEmpty) && decVal (c :: rest) ≤ 255

/-- `IPv4Address._ip_int_from_string`: exactly four valid octets. -/
def validIPv4 (s : Str) : Bool :=
  match splitOn '.' s with
  | [a, b, c, d] => validOctet a && validOctet b && validOctet c && validOctet d
  | _ => false

/-- `IPv6Address._parse_hextet`: hex digits only, at most four, and
nonempty (`int('', 16)` raises). -/
def validHextet (s : Str) : Bool :=
  s.all isHexDig && s.length ≤ 4 && !s.isEmpty

/-- The colon-part validation of `IPv6Address._ip_int_from_string` after
the embedded-IPv4 rewrite: at most 9 parts; at most one empty interior
part (the `::`); an empty endpoint only directly beside the `::`; without
a `::` exactly 8 parts with nonempty endpoints; every part that is copied
into the address a valid hextet. -/
def validIPv6Parts (parts : List Str) : Bool :=
  if 9 < parts.length then false
  else
    let interior := (parts.drop 1).dropLast
    let empties := (interior.filter List.isEmpty).length
    if 2 ≤ empties then false
    else if empties = 1 then
      let skipIdx := interior.findIdx List.isEmpty + 1
      let hi0 := skipIdx
      let lo0 := parts.length - skipIdx - 1
      let headEmpty := (parts.headD []).isEmpty
      let lastEmpty := (parts.getLastD []).isEmpty
      let hi1 := if headEmpty then hi0 - 1 else hi0
      let lo1 := if lastEmpty then lo0 - 1 else lo0
      if headEmpty && !(hi1 == 0) then false
      else if lastEmpty && !(lo1 == 0) then false
      else if 8 ≤ hi1 + lo1 then false
      else (parts.take hi1 ++ parts.drop (parts.length - lo1)).all validHextet
    else
      (parts.length == 8) && !(parts.headD []).isEmpty &&
        !(parts.getLastD []).isEmpty && parts.all validHextet

/-- `IPv6Address._ip_int_from_string`: at least three colon-parts; a last
part containing a dot must be a valid IPv4 address and is rewritten into
two (always valid) hextets before the part validation. -/
def validIPv6Addr (s : Str) : Bool :=
  let parts := splitOn ':' s
  if parts.length < 3 then false
  else if (parts.getLastD []).contains '.' then
    validIPv4 (parts.getLastD []) &&
      validIPv6Parts (parts.dropLast ++ [['0'], ['0']])
  else validIPv6Parts parts

/-- `IPv6Address` with optional scope id (`_split_scope_id`): the scope
follows the first `%`, must be nonempty and contain no further `%`; the
part before the `%` is the numeric address. -/
def validIPv6Scoped (s : Str) : Bool :=
  if s.contains '%' then
    (!(afterFirst '%' s).isEmpty && !(afterFirst '%' s).contains '%') &&
      validIPv6Addr (upToFirst '%' s)
  else validIPv6Addr s

/-- `_check_bracketed_host`: a host starting with a lower-case `v` must
match the IPvFuture regex `\Av[a-fA-F0-9]+\..+\Z` (one-plus hex digits,
a dot, then a nonempty remainder); any other host goes through
`ipaddress.ip_address` — a valid IPv4 address raises ("cannot be in
brackets"), a valid IPv6 address is accepted, anything else raises.
`true` means no exception. -/
def checkBracketedHost (h : Str) : Bool :=
  match h with
  | 'v' :: t =>
    let r := t.span isHexDig
    !r.1.isEmpty &&
      (match r.2 with
       | c :: rest => c == '.' && !rest.isEmpty
       | [] => false)
  | _ => if validIPv4 h then false else validIPv6Scoped h

/-- `urllib.parse.urlparse(url).netloc` for an extracted http/https URL,
with `urlsplit`'s ValueError behavior: `none` models the `ValueError`
propagating out of `analyze_urls` (mismatched bracket, or a bracketed
host that `_check_bracketed_host` rejects). -/
def urlparseNetloc (url : Str) : Option Str :=
  let netloc := netlocOf url
  if (netloc.contains '[' && !netloc.contains ']') ||
      (netloc.contains ']' && !netloc.contains '[') then none
  else if netloc.contains '[' && netloc.contains ']' then
    if checkBracketedHost (upToFirst ']' (afterFirst '[' netloc)) then some netloc
    else none
  else some netloc

/-- Consume `\d+` then a literal `.`; the dot is not a digit, so the greedy
maximal digit run is the only viable split. -/
def digitsThenDot (l : Str) : Option Str :=
  match l.span Char.isDigit with
  | ([], _) => none
  | (_ :: _, rest) =>
    match rest with
    | [] => none
    | c :: rs => if c = '.' then some rs else none

/-- `\d+$`: one or more digits reaching the end of the subject. -/
def digitsEnd (l : Str) : Bool :=
  match l.span Char.isDigit with
  | (d, rest) => !d.isEmpty && rest.isEmpty

/-- `re.match(r'^\d+\.\d+\.\d+\.\d+$', netloc)`: a bare dotted-quad
literal.  (A netloc never contains a newline — newlines are not URL
characters — so `$` is plain end-of-string here.) -/
def isDottedQuad (l : Str) : Bool :=
  match digitsThenDot l with
  | none => false
  | some l1 =>
    match digitsThenDot l1 with
    | none => false
    | some l2 =>
      match digitsThenDot l2 with
      | none => false
      | some l3 => digitsEnd l3

/-- One finding of `analyze_urls`. -/
structure URLFinding where
  url : Str
  risk_score : ℚ
  reasons : List String
deriving DecidableEq

/-- The `for tld in self.suspicious_tlds` loop: `domain.endswith(tld)`
adds 0.4 and a reason per matching suffix, in table order. -/
def tldScan (domain : Str) : List String → ℚ × List String
  | [] => (0, [])
  | tld :: rest =>
    let r := tldScan domain rest
    if tld.toList.isSuffixOf domain then
      (0.4 + r.1, ("Suspicious TLD: " ++ tld) :: r.2)
    else r

/-- The per-URL body of `analyze_urls`: the four checks run in source
order, each adding its increment to `risk_score` and appending its
reason. -/
def mkURLFinding (tlds : List String) (url : Str) : URLFinding :=
  let netloc := netlocOf url
  let domain := lowerStr netloc
  let tldPart := tldScan domain tlds
  let ipHit := isDottedQuad netloc
  let subHit := decide (2 < netloc.count '.')
  let pctHit := url.contains '%'
  { url := url,
    risk_score := tldPart.1 + (if ipHit then 0.5 else 0)
      + (if subHit then 0.3 else 0) + (if pctHit then 0.3 else 0),
    reasons := tldPart.2
      ++ (if ipHit then ["IP address used instead of domain name"] else [])
      ++ (if subHit then ["Multiple subdomains detected"] else [])
      ++ (if pctHit then ["URL contains encoded characters"] else []) }

/-- The `for url in urls` loop of `analyze_urls`: each URL goes through
`urlparse` (whose ValueError aborts the whole analysis) and is then
scored; `none` models the exception propagating. -/
def urlsLoop (tlds : List String) : List Str → Option (List URLFinding)
  | [] => some []
  | url :: rest =>
    match urlparseNetloc url with
    | none => none
    | some _ =>
      match urlsLoop tlds rest with
      | none => none
      | some fs => some (mkURLFinding tlds url :: fs)

/-- `analyze_urls(self, text)`: one finding per extracted URL in
extraction order, unless some extracted URL makes `urlparse` raise. -/
def PhishingDetector.analyze_urls (self : PhishingDetector) (text : String) :
    Option (List URLFinding) :=
  urlsLoop self.suspicious_tlds (findUrls text)

/-- The per-entry body of the `for keyword, score in ...` loop of
`analyze_keywords`: substring containment of the keyword in the (already
lower-cased) text adds the weight once and records the keyword, in table
order. -/
def keywordScan (ltext : Str) : List (String × ℚ) → ℚ × List String
  | [] => (0, [])
  | (kw, w) :: rest =>
    let r := keywordScan ltext rest
    if isSubstrOf kw.toList ltext then (w + r.1, kw :: r.2) else r

/-- `analyze_keywords(self, text)`: lower-case the whole text, then scan
the keyword table, returning `(total_score, detected_keywords)`. -/
def PhishingDetector.analyze_keywords (self : PhishingDetector) (text : String) :
    ℚ × List String :=
  keywordScan (lowerStr text.toList) self.suspicious_keywords

/-! ## Header analysis -/

/-- A header mapping: Python dict of lower-cased header name → raw value.
A dict has distinct keys; `lookup` realises both `k in h` and `h[k]`. -/
abbrev Headers := List (String × String)

/-- Python `k in headers`. -/
def hasKey (h : Headers) (k : String) : Bool := (h.lookup k).isSome

/-- Python `headers[k]` (used only under `hasKey`). -/
def getVal (h : Headers) (k : String) : String := (h.lookup k).getD ""

/-- Python `s.split('@')`: split on every `@`, keeping empty parts; the
result is never the empty list. -/
def splitOnAmp : Str → List Str
  | [] => [[]]
  | c :: cs =>
    let r := splitOnAmp cs
    if c = '@' then [] :: r
    else
      match r with
      | [] => [[c]]
      | p :: ps => (c :: p) :: ps

/-- `s.split('@')[-1]`: the segment after the last `@`; when `s` has no
`@` this is `s` itself (a one-element split). -/
def domainAfterAmp (s : String) : Str := (splitOnAmp s.toList).getLastD []

/-- The `for pattern in self.suspicious_sender_patterns` loop: each regex
that `re.search`-matches the (lower-cased, for `re.I`) from-value adds 0.3
and records its source text, in table order, without early exit. -/
def patternScan (lfrom : Str) : List (String × (Str → Bool)) → ℚ × List String
  | [] => (0, [])
  | (src, m) :: rest =>
    let r := patternScan lfrom rest
    if m lfrom then (0.3 + r.1, ("Suspicious sender pattern: " ++ src) :: r.2)
    else r

/-- The local list `important_headers` of `analyze_headers`. -/
def important_headers : List String :=
  ["received", "authentication-results", "dkim-signature"]

/-- The `for header in important_headers` loop: each absent header adds
0.2 and records its name. -/
def missingScan (h : Headers) : List String → ℚ × List String
  | [] => (0, [])
  | k :: rest =>
    let r := missingScan h rest
    if hasKey h k then r
    else (0.2 + r.1, ("Missing important header: " ++ k) :: r.2)

/-- `analyze_headers(self, headers)`: the Reply-To mismatch check, the
sender-pattern loop and the missing-header loop, contributions summed and
reasons appended in that source order. -/
def PhishingDetector.analyze_headers (self : PhishingDetector) (h : Headers) :
    ℚ × List String :=
  let mismatch : ℚ × List String :=
    if hasKey h "from" && hasKey h "reply-to" then
      if domainAfterAmp (getVal h "from") ≠ domainAfterAmp (getVal h "reply-to") then
        (0.4, ["Reply-To domain mismatch"])
      else (0, [])
    else (0, [])
  let pats : ℚ × List String :=
    if hasKey h "from" then
      patternScan (lowerStr (getVal h "from").toList) self.suspicious_sender_patterns
    else (0, [])
  let miss := missingScan h important_headers
  (mismatch.1 + pats.1 + miss.1, mismatch.2 ++ pats.2 ++ miss.2)

/-! ## Aggregation -/

/-- The `keyword_analysis` entry of the report. -/
structure KeywordResult where
  score : ℚ
  detected_keywords : List String
deriving DecidableEq

/-- The `header_analysis` entry of the report when headers were analyzed. -/
structure HeaderResult where
  score : ℚ
  reasons : List String
deriving DecidableEq

/-- The dictionary returned by `analyze_message`.  `header_analysis` is
initialised to an empty list and only replaced by a populated dict when the
headers argument is truthy; `none` models the untouched empty value. -/
structure AnalysisReport where
  overall_risk_score : ℚ
  risk_level : String
  url_analysis : List URLFinding
  keyword_analysis : KeywordResult
  header_analysis : Option HeaderResult
  recommendations : List String
deriving DecidableEq

/-- Python truthiness of the `headers: Dict = None` argument: `None` and
the empty dict are falsy, a non-empty dict is truthy. -/
def headersTruthy : Option Headers → Bool
  | none => false
  | some h => !h.isEmpty

/-- The `if/elif/else` ladder at the end of `analyze_message`: Python
`score >= 0.7` → High, `score >= 0.4` → Medium, otherwise Low, each branch
fixing the risk level and the single appended recommendation. -/
def classify (o : ℚ) : String × String :=
  if 0.7 ≤ o then
    ("High", "Block this message immediately")
  else if 0.4 ≤ o then
    ("Medium", "Review message carefully before taking any action")
  else
    ("Low", "Message appears to be legitimate but always exercise caution")

/-- The report `analyze_message` builds once `analyze_urls` has returned
its findings: run the keyword analyzer, the header analyzer only when
`headers` is truthy, sum the scores, clamp at 1.0, and classify with the
`>= 0.7` / `>= 0.4` ladder. -/
def buildReport (self : PhishingDetector) (message_text : String)
    (headers : Option Headers) (url_results : List URLFinding) :
    AnalysisReport :=
  let url_score := (url_results.map URLFinding.risk_score).sum
  let kw := self.analyze_keywords message_text
  let headerPart : ℚ × Option HeaderResult :=
    match headers with
    | none => (0, none)
    | some h =>
      if h.isEmpty then (0, none)
      else
        let r := self.analyze_headers h
        (r.1, some ⟨r.1, r.2⟩)
  let total_score := url_score + kw.1 + headerPart.1
  let overall := min total_score 1
  let classified : String × String := classify overall
  { overall_risk_score := overall,
    risk_level := classified.1,
    url_analysis := url_results,
    keyword_analysis := ⟨kw.1, kw.2⟩,
    header_analysis := headerPart.2,
    recommendations := [classified.2] }

/-- `analyze_message(self, message_text, headers=None)`: `analyze_urls`
runs first and its uncaught ValueError (if any) propagates before any
report is assembled; on success the rest of the method builds the
report. -/
def PhishingDetector.analyze_message (self : PhishingDetector)
    (message_text : String) (headers : Option Headers) :
    Option AnalysisReport :=
  (self.analyze_urls message_text).map (buildReport self message_text headers)

/-- A Python-level method call on the detector object: the result (a
report, or `none` for the propagated exception) paired with the post-call
object state.  `analyze_message` (and the analyzers it calls) only read
`self`, never assign to it, so the post-call state is the received one —
also on the exception path, which unwinds without touching `self`. -/
def analyzeMessageCall (self : PhishingDetector) (message_text : String)
    (headers : Option Headers) : Option AnalysisReport × PhishingDetector :=
  (self.analyze_message message_text headers, self)

/-- The report of a successful analysis; a zeroed placeholder on the
exception path (used only to write concrete instances down). -/
def theReport (o : Option AnalysisReport) : AnalysisReport :=
  o.getD { overall_risk_score := 0, risk_level := "", url_analysis := [],
           keyword_analysis := ⟨0, []⟩, header_analysis := none,
           recommendations := [] }

/-! ## Definitions written from the spec's words, for comparison with the
code.  They are used only to state refutations; the source-derived
definitions above are the authority. -/

/-- The header component of the overall score as claim C1 words it: "the
header analyzer's score when headers are provided and 0 otherwise" — i.e.
any provided mapping, empty or not, is analyzed. -/
def headerScoreClaimed (self : PhishingDetector) : Option Headers → ℚ
  | none => 0
  | some h => (self.analyze_headers h).1

/-- The domain extraction as claim C4 words it: "when a value contains no
'@' character, the extracted domain segment for that value is the empty
string". -/
def domainAfterAmpClaimed (s : String) : Str :=
  if s.toList.contains '@' then (splitOnAmp s.toList).getLastD [] else []

/-- Concrete header mapping exercising the missing-`@` extraction: the
from-value has no `@`, the reply-to domain equals that whole from-value,
and the three authenticity headers are present. -/
def hdrsNoAmp : Headers :=
  [ ("from", "alice"),
    ("reply-to", "alice@alice"),
    ("received", "by mail.example.com"),
    ("authentication-results", "mail.example.com; spf=pass"),
    ("dkim-signature", "v=1") ]

/-! ## Helper lemmas: closed forms of the scanning loops -/

/-- The keyword loop realises a filter over the table: the score is the sum
of the weights of the contained keywords and the detected list is those
keywords in table order. -/
theorem keywordScan_eq (ltext : Str) (table : List (String × ℚ)) :
    keywordScan ltext table =
      (((table.filter (fun q => isSubstrOf q.1.toList ltext)).map Prod.snd).sum,
       (table.filter (fun q => isSubstrOf q.1.toList ltext)).map Prod.fst) := by
  induction table with
  | nil => rfl
  | cons q rest ih =>
    obtain ⟨kw, w⟩ := q
    by_cases hq : isSubstrOf kw.toList ltext = true
    · simp only [keywordScan, List.filter_cons, hq, if_true, List.map_cons,
        List.sum_cons, ih]
    · simp only [keywordScan, List.filter_cons, hq, ih]
      simp

/-- The TLD loop: 0.4 per matching suffix, one reason per match. -/
theorem tldScan_eq (domain : Str) (tlds : List String) :
    tldScan domain tlds =
      (0.4 * ((tlds.filter (fun t => t.toList.isSuffixOf domain)).length : ℚ),
       (tlds.filter (fun t => t.toList.isSuffixOf domain)).map
         (fun t => "Suspicious TLD: " ++ t)) := by
  induction tlds with
  | nil => simp [tldScan]
  | cons t rest ih =>
    by_cases ht : t.toList.isSuffixOf domain = true
    · simp only [tldScan, List.filter_cons, ht, if_true, List.map_cons,
        List.length_cons, ih, Prod.mk.injEq]
      constructor
      · push_cast
        ring
      · trivial
    · simp only [tldScan, List.filter_cons, ht, ih]
      simp

/-- The sender-pattern loop: 0.3 per matching regex, one reason per match,
in table order, without early exit. -/
theorem patternScan_eq (lfrom : Str) (pats : List (String × (Str → Bool))) :
    patternScan lfrom pats =
      (0.3 * ((pats.filter (fun p => p.2 lfrom)).length : ℚ),
       (pats.filter (fun p => p.2 lfrom)).map
         (fun p => "Suspicious sender pattern: " ++ p.1)) := by
  induction pats with
  | nil => simp [patternScan]
  | cons p rest ih =>
    by_cases hp : p.2 lfrom = true
    · simp only [patternScan, List.filter_cons, hp, if_true, List.map_cons,
        List.length_cons, ih, Prod.mk.injEq]
      constructor
      · push_cast
        ring
      · trivial
    · simp only [patternScan, List.filter_cons, hp, ih]
      simp

/-- The missing-header loop: 0.2 per absent important header, one reason
per absence. -/
theorem missingScan_eq (h : Headers) (ks : List String) :
    missingScan h ks =
      (0.2 * ((ks.filter (fun k => !hasKey h k)).length : ℚ),
       (ks.filter (fun k => !hasKey h k)).map
         (fun k => "Missing important header: " ++ k)) := by
  induction ks with
  | nil => simp [missingScan]
  | cons k rest ih =>
    by_cases hk : hasKey h k = true
    · simp only [missingScan, List.filter_cons, hk, ih]
      simp
    · simp only [missingScan, List.filter_cons, hk, ih]
      simp only [Bool.not_eq_true] at hk
      simp only [hk, Bool.not_false, Bool.false_eq_true, if_false, if_true,
        List.map_cons, List.length_cons, Prod.mk.injEq]
      constructor
      · push_cast
        ring
      · trivial

/-! ## Helper lemmas: nonnegativity of the component scores -/

/-- A table of nonnegative weights yields a nonnegative keyword score. -/
theorem keywordScan_fst_nonneg (ltext : Str) (table : List (String × ℚ))
    (hw : ∀ q ∈ table, 0 ≤ q.2) : 0 ≤ (keywordScan ltext table).1 := by
  induction table with
  | nil => simp [keywordScan]
  | cons q rest ih =>
    have h0 : 0 ≤ q.2 := hw q (List.mem_cons_self q rest)
    have hr : 0 ≤ (keywordScan ltext rest).1 :=
      ih (fun p hp => hw p (List.mem_cons_of_mem q hp))
    simp only [keywordScan]
    split
    · exact add_nonneg h0 hr
    · exact hr

/-- Every weight of the static keyword table is nonnegative. -/
theorem suspicious_keywords_nonneg : ∀ q ∈ suspicious_keywords, 0 ≤ q.2 := by
  intro q hq
  fin_cases hq <;> norm_num

/-- Every per-URL risk score is a sum of nonnegative increments. -/
theorem mkURLFinding_score_nonneg (tlds : List String) (url : Str) :
    0 ≤ (mkURLFinding tlds url).risk_score := by
  have h1 : 0 ≤ (tldScan (lowerStr (netlocOf url)) tlds).1 := by
    rw [tldScan_eq]
    positivity
  simp only [mkURLFinding]
  refine add_nonneg (add_nonneg (add_nonneg h1 ?_) ?_) ?_ <;> split <;> norm_num

/-- A successful URL loop returns exactly the per-URL scorer mapped over
the extracted URLs, in order. -/
theorem urlsLoop_ok_map (tlds : List String) (urls : List Str)
    (fs : List URLFinding) (h : urlsLoop tlds urls = some fs) :
    fs = urls.map (mkURLFinding tlds) := by
  induction urls generalizing fs with
  | nil =>
    simp only [urlsLoop, Option.some.injEq] at h
    simp [← h]
  | cons u rest ih =>
    simp only [urlsLoop] at h
    rcases hp : urlparseNetloc u with _ | n
    · simp [hp] at h
    · simp only [hp] at h
      rcases hr : urlsLoop tlds rest with _ | fs0
      · simp [hr] at h
      · simp only [hr, Option.some.injEq] at h
        subst h
        simp [ih fs0 hr]

/-- When every extracted URL parses, the loop succeeds with one finding
per URL occurrence, in order of appearance. -/
theorem urlsLoop_all_some (tlds : List String) (urls : List Str)
    (h : ∀ u ∈ urls, (urlparseNetloc u).isSome = true) :
    urlsLoop tlds urls = some (urls.map (mkURLFinding tlds)) := by
  induction urls with
  | nil => rfl
  | cons u rest ih =>
    obtain ⟨n, hn⟩ := Option.isSome_iff_exists.mp (h u (List.mem_cons_self u rest))
    have hr := ih (fun v hv => h v (List.mem_cons_of_mem u hv))
    simp only [urlsLoop, hn, hr, List.map_cons]

/-- The findings of a successful URL analysis sum to a nonnegative
score. -/
theorem urlSum_nonneg (self : PhishingDetector) (text : String)
    (fs : List URLFinding) (h : self.analyze_urls text = some fs) :
    0 ≤ (fs.map URLFinding.risk_score).sum := by
  apply List.sum_nonneg
  intro x hx
  obtain ⟨f, hf, rfl⟩ := List.mem_map.mp hx
  rw [urlsLoop_ok_map _ _ _ h] at hf
  obtain ⟨u, hu, rfl⟩ := List.mem_map.mp hf
  exact mkURLFinding_score_nonneg _ _

/-- The header component of the overall score is nonnegative. -/
theorem analyze_headers_fst_nonneg (self : PhishingDetector) (h : Headers) :
    0 ≤ (self.analyze_headers h).1 := by
  simp only [PhishingDetector.analyze_headers]
  refine add_nonneg (add_nonneg ?_ ?_) ?_
  · split
    · split <;> norm_num
    · norm_num
  · split
    · rw [patternScan_eq]
      positivity
    · norm_num
  · rw [missingScan_eq]
    positivity

/-! ## Helper lemmas: shape of the report -/

/-- A successful analysis is exactly a successful URL analysis followed
by the report builder. -/
theorem analyze_message_some (self : PhishingDetector) (text : String)
    (headers : Option Headers) (r : AnalysisReport) :
    self.analyze_message text headers = some r ↔
      ∃ fs, self.analyze_urls text = some fs ∧
        r = buildReport self text headers fs := by
  simp only [PhishingDetector.analyze_message, Option.map_eq_some']
  constructor
  · rintro ⟨fs, h1, h2⟩
    exact ⟨fs, h1, h2.symm⟩
  · rintro ⟨fs, h1, h2⟩
    exact ⟨fs, h1, h2.symm⟩

/-- The overall score of a built report is the clamped sum of the URL,
keyword and (truthiness-guarded) header components. -/
theorem buildReport_overall (self : PhishingDetector) (text : String)
    (headers : Option Headers) (fs : List URLFinding) :
    (buildReport self text headers fs).overall_risk_score =
      min ((fs.map URLFinding.risk_score).sum
        + (self.analyze_keywords text).1
        + (if headersTruthy headers = true then
            (self.analyze_headers (headers.getD [])).1 else 0)) 1 := by
  cases headers with
  | none => rfl
  | some h =>
    cases h with
    | nil => rfl
    | cons a t => rfl

/-- The level and recommendation of a built report are exactly the
classification of its overall score. -/
theorem buildReport_class (self : PhishingDetector) (text : String)
    (headers : Option Headers) (fs : List URLFinding) :
    (buildReport self text headers fs).risk_level =
        (classify (buildReport self text headers fs).overall_risk_score).1 ∧
    (buildReport self text headers fs).recommendations =
        [(classify (buildReport self text headers fs).overall_risk_score).2] := by
  cases headers with
  | none => exact ⟨rfl, rfl⟩
  | some h =>
    cases h with
    | nil => exact ⟨rfl, rfl⟩
    | cons a t => exact ⟨rfl, rfl⟩

/-- Case analysis of the classification ladder. -/
theorem classify_spec (o : ℚ) :
    (0.7 ≤ o → classify o = ("High", "Block this message immediately")) ∧
    (0.4 ≤ o ∧ o < 0.7 →
      classify o = ("Medium", "Review message carefully before taking any action")) ∧
    (o < 0.4 →
      classify o = ("Low", "Message appears to be legitimate but always exercise caution")) := by
  unfold classify
  refine ⟨fun h => ?_, fun h => ?_, fun h => ?_⟩
  · rw [if_pos h]
  · rw [if_neg (not_le.mpr h.2), if_pos h.1]
  · rw [if_neg (not_le.mpr (by linarith)), if_neg (not_le.mpr h)]

/-- Both components of `analyze_headers`, in closed form: the Reply-To
mismatch check, 0.3 per matching sender pattern, 0.2 per missing important
header, with the matching reasons in source order. -/
theorem analyze_headers_eq (self : PhishingDetector) (h : Headers) :
    (self.analyze_headers h).1 =
      (if (hasKey h "from" && hasKey h "reply-to") = true then
        (if domainAfterAmp (getVal h "from") ≠ domainAfterAmp (getVal h "reply-to")
          then (0.4:ℚ) else 0)
       else 0)
      + (if hasKey h "from" = true then
          0.3 * ((self.suspicious_sender_patterns.filter
              (fun p => p.2 (lowerStr (getVal h "from").toList))).length : ℚ)
         else 0)
      + 0.2 * ((important_headers.filter (fun k => !hasKey h k)).length : ℚ) ∧
    (self.analyze_headers h).2 =
      (if (hasKey h "from" && hasKey h "reply-to") = true then
        (if domainAfterAmp (getVal h "from") ≠ domainAfterAmp (getVal h "reply-to")
          then ["Reply-To domain mismatch"] else [])
       else [])
      ++ (if hasKey h "from" = true then
            (self.suspicious_sender_patterns.filter
                (fun p => p.2 (lowerStr (getVal h "from").toList))).map
              (fun p => "Suspicious sender pattern: " ++ p.1)
          else [])
      ++ (important_headers.filter (fun k => !hasKey h k)).map
          (fun k => "Missing important header: " ++ k) := by
  simp only [PhishingDetector.analyze_headers, patternScan_eq, missingScan_eq]
  constructor
  · split_ifs <;> norm_num
  · split_ifs <;> norm_num

/-- Splitting a string that contains no `@` is the identity split. -/
theorem splitOnAmp_no_amp (l : Str) (h : ('@' : Char) ∉ l) : splitOnAmp l = [l] := by
  induction l with
  | nil => rfl
  | cons c cs ih =>
    rw [List.mem_cons, not_or] at h
    obtain ⟨h1, h2⟩ := h
    have hc : ¬ c = '@' := fun e => h1 e.symm
    simp only [splitOnAmp, if_neg hc, ih h2]

/-! ## Claim theorems -/

/-- C1, counterexample: the claim reads "header_score is the header
analyzer's score when headers are provided"; but a provided-yet-empty
mapping is Python-falsy, so `analyze_message` skips the header analyzer
while `analyze_headers({})` itself would score 0.6 — at
`message_text = ""`, `headers = {}` the reported overall score (0) differs
from the claimed formula (min(0 + 0 + 0.6, 1.0) = 0.6). -/
theorem C1_counterexample :
    (PhishingDetector.init.analyze_message "" (some [])).map
        AnalysisReport.overall_risk_score ≠
      some (min ((((PhishingDetector.init.analyze_urls "").getD []).map
          URLFinding.risk_score).sum
        + (PhishingDetector.init.analyze_keywords "").1
        + headerScoreClaimed PhishingDetector.init (some [])) 1) := by
  have hL : (PhishingDetector.init.analyze_message "" (some [])).map
      AnalysisReport.overall_risk_score = some (min ((0:ℚ) + 0 + 0) 1) := rfl
  have hR : (((PhishingDetector.init.analyze_urls "").getD []).map
          URLFinding.risk_score).sum
        + (PhishingDetector.init.analyze_keywords "").1
        + headerScoreClaimed PhishingDetector.init (some [])
      = 0 + 0 + (0 + 0 + (0.2 + (0.2 + (0.2 + 0)))) := rfl
  rw [hL, hR]
  simp only [ne_eq, Option.some.injEq]
  norm_num [min_def]

/-- C1, amended: whenever analyze_message returns a report (its uncaught
urlparse ValueError propagates otherwise, see C6), the reported
overall_risk_score equals min(url_score + keyword_score + header_score,
1.0), where url_score is the sum of the risk_score of every URLFinding of
the successful URL analysis, keyword_score is the keyword analyzer's
score, and header_score is the header analyzer's score when a non-empty
header mapping is provided and 0 otherwise (a provided empty mapping is
falsy and is treated like absent headers); only this final aggregate is
clamped, the summed components are not. -/
theorem C1_overall_formula (text : String) (headers : Option Headers)
    (r : AnalysisReport)
    (h : PhishingDetector.init.analyze_message text headers = some r) :
    PhishingDetector.init.analyze_urls text = some r.url_analysis ∧
    r.overall_risk_score =
      min ((r.url_analysis.map URLFinding.risk_score).sum
        + (PhishingDetector.init.analyze_keywords text).1
        + (if headersTruthy headers = true then
            (PhishingDetector.init.analyze_headers (headers.getD [])).1 else 0)) 1 := by
  obtain ⟨fs, hfs, rfl⟩ := (analyze_message_some _ _ _ _).mp h
  exact ⟨hfs, buildReport_overall _ _ _ _⟩

/-- Witness for the amended C1, at a report-producing input. -/
theorem C1_overall_formula_witness :
    PhishingDetector.init.analyze_urls "paypal only" =
      some (theReport (PhishingDetector.init.analyze_message
        "paypal only" none)).url_analysis ∧
    (theReport (PhishingDetector.init.analyze_message
        "paypal only" none)).overall_risk_score =
      min (((theReport (PhishingDetector.init.analyze_message
            "paypal only" none)).url_analysis.map URLFinding.risk_score).sum
        + (PhishingDetector.init.analyze_keywords "paypal only").1
        + (if headersTruthy none = true then
            (PhishingDetector.init.analyze_headers
              ((none : Option Headers).getD [])).1 else 0)) 1 :=
  C1_overall_formula "paypal only" none _ rfl

/-- C2: for every message text and every optional header mapping on which
analyze_message returns a report, the reported overall_risk_score lies in
[0, 1] (on bracket-netloc inputs the call raises instead and reports
nothing, see C6). -/
theorem C2_overall_in_unit (text : String) (headers : Option Headers)
    (r : AnalysisReport)
    (h : PhishingDetector.init.analyze_message text headers = some r) :
    0 ≤ r.overall_risk_score ∧ r.overall_risk_score ≤ 1 := by
  obtain ⟨fs, hfs, rfl⟩ := (analyze_message_some _ _ _ _).mp h
  rw [buildReport_overall]
  constructor
  · refine le_min ?_ (by norm_num)
    have h1 := urlSum_nonneg PhishingDetector.init text fs hfs
    have h2 : 0 ≤ (PhishingDetector.init.analyze_keywords text).1 :=
      keywordScan_fst_nonneg _ _ suspicious_keywords_nonneg
    have h3 : (0:ℚ) ≤ (if headersTruthy headers = true then
        (PhishingDetector.init.analyze_headers (headers.getD [])).1 else 0) := by
      split
      · exact analyze_headers_fst_nonneg _ _
      · norm_num
    linarith
  · exact min_le_right _ _

/-- Witness for C2 at a report-producing input. -/
theorem C2_overall_in_unit_witness :
    0 ≤ (theReport (PhishingDetector.init.analyze_message
        "urgent" none)).overall_risk_score ∧
    (theReport (PhishingDetector.init.analyze_message
        "urgent" none)).overall_risk_score ≤ 1 :=
  C2_overall_in_unit "urgent" none _ rfl

/-- C3: for every call that returns a report, classification of the
clamped overall_risk_score follows this exact precedence — at least 0.7
gives High with "Block this message immediately"; in [0.4, 0.7) gives
Medium with "Review message carefully before taking any action"; below
0.4 gives Low; the boundaries 0.7 and 0.4 fall in the High and Medium
cases respectively. -/
theorem C3_classification (text : String) (headers : Option Headers)
    (r : AnalysisReport)
    (h : PhishingDetector.init.analyze_message text headers = some r) :
    ((0.7:ℚ) ≤ r.overall_risk_score →
      r.risk_level = "High" ∧
      r.recommendations = ["Block this message immediately"]) ∧
    ((0.4:ℚ) ≤ r.overall_risk_score ∧ r.overall_risk_score < 0.7 →
      r.risk_level = "Medium" ∧
      r.recommendations = ["Review message carefully before taking any action"]) ∧
    (r.overall_risk_score < 0.4 → r.risk_level = "Low") := by
  obtain ⟨fs, hfs, rfl⟩ := (analyze_message_some _ _ _ _).mp h
  obtain ⟨hlev, hrec⟩ := buildReport_class PhishingDetector.init text headers fs
  obtain ⟨h1, h2, h3⟩ := classify_spec
    (buildReport PhishingDetector.init text headers fs).overall_risk_score
  refine ⟨fun hh => ⟨?_, ?_⟩, fun hh => ⟨?_, ?_⟩, fun hh => ?_⟩
  · rw [hlev, h1 hh]
  · rw [hrec, h1 hh]
  · rw [hlev, h2 hh]
  · rw [hrec, h2 hh]
  · rw [hlev, h3 hh]

/-- Witness for C3: a message scoring exactly 0.7 ("paypal only") is High,
one scoring exactly 0.4 ("account suspended") is Medium, and the empty
message (score 0) is Low. -/
theorem C3_classification_witness :
    (theReport (PhishingDetector.init.analyze_message
        "paypal only" none)).risk_level = "High" ∧
    (theReport (PhishingDetector.init.analyze_message
        "account suspended" none)).risk_level = "Medium" ∧
    (theReport (PhishingDetector.init.analyze_message "" none)).risk_level
      = "Low" := by
  have e1 : (buildReport PhishingDetector.init "paypal only" none
      []).overall_risk_score = 0.7 := by
    rw [buildReport_overall]
    norm_num [show (PhishingDetector.init.analyze_keywords "paypal only").1
        = 0.7 + 0 from rfl,
      headersTruthy, min_def]
  have e2 : (buildReport PhishingDetector.init "account suspended" none
      []).overall_risk_score = 0.4 := by
    rw [buildReport_overall]
    norm_num [show (PhishingDetector.init.analyze_keywords "account suspended").1
        = 0.4 + 0 from rfl,
      headersTruthy, min_def]
  have e3 : (buildReport PhishingDetector.init "" none
      []).overall_risk_score = 0 := by
    rw [buildReport_overall]
    norm_num [show (PhishingDetector.init.analyze_keywords "").1 = 0 from rfl,
      headersTruthy, min_def]
  refine ⟨((C3_classification "paypal only" none _ rfl).1 (by rw [e1])).1,
          ((C3_classification "account suspended" none _ rfl).2.1
            ⟨by rw [e2], by rw [e2]; norm_num⟩).1,
          (C3_classification "" none _ rfl).2.2 (by rw [e3]; norm_num)⟩

/-- C5: the keyword analyzer lower-cases the whole text and scans the table
in definition order; a keyword contributes its weight and is recorded
exactly when it is a substring of the lowered text, hence once per table
entry no matter how often it occurs, with detected_keywords in table order;
the empty text yields score 0 and no detected keywords. -/
theorem C5_keyword_contract (text : String) :
    PhishingDetector.init.analyze_keywords text =
      (((suspicious_keywords.filter
          (fun q => isSubstrOf q.1.toList (lowerStr text.toList))).map Prod.snd).sum,
       (suspicious_keywords.filter
          (fun q => isSubstrOf q.1.toList (lowerStr text.toList))).map Prod.fst) ∧
    PhishingDetector.init.analyze_keywords "" = (0, []) :=
  ⟨keywordScan_eq (lowerStr text.toList) suspicious_keywords, rfl⟩

/-- C7: the header score is the sum of exactly three independent checks —
0.4 when from and reply-to are both present with differing after-last-@
domains, 0.3 per case-insensitively matching sender pattern (all matches
contribute), and 0.2 per absent important header — each with its recorded
reason; an empty mapping (all three important headers absent) scores
exactly 0.6. -/
theorem C7_header_checks (h : Headers) :
    ((PhishingDetector.init.analyze_headers h).1 =
      (if (hasKey h "from" && hasKey h "reply-to") = true then
        (if domainAfterAmp (getVal h "from") ≠ domainAfterAmp (getVal h "reply-to")
          then (0.4:ℚ) else 0)
       else 0)
      + (if hasKey h "from" = true then
          0.3 * ((suspicious_sender_patterns.filter
              (fun p => p.2 (lowerStr (getVal h "from").toList))).length : ℚ)
         else 0)
      + 0.2 * ((important_headers.filter (fun k => !hasKey h k)).length : ℚ)) ∧
    ((PhishingDetector.init.analyze_headers h).2 =
      (if (hasKey h "from" && hasKey h "reply-to") = true then
        (if domainAfterAmp (getVal h "from") ≠ domainAfterAmp (getVal h "reply-to")
          then ["Reply-To domain mismatch"] else [])
       else [])
      ++ (if hasKey h "from" = true then
            (suspicious_sender_patterns.filter
                (fun p => p.2 (lowerStr (getVal h "from").toList))).map
              (fun p => "Suspicious sender pattern: " ++ p.1)
          else [])
      ++ (important_headers.filter (fun k => !hasKey h k)).map
          (fun k => "Missing important header: " ++ k)) ∧
    ((PhishingDetector.init.analyze_headers ([] : Headers)).1 = 0.6) := by
  obtain ⟨h1, h2⟩ := analyze_headers_eq PhishingDetector.init h
  refine ⟨h1, h2, ?_⟩
  have he : (PhishingDetector.init.analyze_headers ([] : Headers)).1
      = 0 + 0 + (0.2 + (0.2 + (0.2 + 0))) := rfl
  rw [he]
  norm_num

/-- C4, counterexample: the claim says a value without `@` extracts an
empty domain segment; the code's `split('@')[-1]` instead yields the whole
value — for the from-value "alice" the extracted segment is "alice", not
"", and on a mapping where the reply-to domain equals that whole value the
code adds no mismatch score (total 0) though the claim's empty-segment
comparison would differ and add 0.4. -/
theorem C4_counterexample :
    domainAfterAmp "alice" = "alice".toList ∧
    domainAfterAmpClaimed "alice" = [] ∧
    domainAfterAmp "alice" ≠ domainAfterAmpClaimed "alice" ∧
    (PhishingDetector.init.analyze_headers hdrsNoAmp).1 = 0 := by
  refine ⟨rfl, rfl, by decide, ?_⟩
  have he : (PhishingDetector.init.analyze_headers hdrsNoAmp).1 = 0 + 0 + 0 := rfl
  rw [he]
  norm_num

/-- C4, amended: when a header value contains no `@`, the extracted domain
segment is the entire value (no exception is raised), and the comparison
proceeds normally, adding 0.4 exactly when the two extracted domains
differ (shown here on a from/reply-to-only mapping, whose three missing
important headers contribute the remaining 0.6). -/
theorem C4_no_amp_whole_value (s t : String) (hs : ('@' : Char) ∉ s.toList) :
    domainAfterAmp s = s.toList ∧
    (PhishingDetector.init.analyze_headers [("from", s), ("reply-to", t)]).1 =
      (if s.toList ≠ domainAfterAmp t then (0.4:ℚ) else 0)
      + 0.3 * ((suspicious_sender_patterns.filter
          (fun p => p.2 (lowerStr s.toList))).length : ℚ)
      + 0.6 := by
  have hd : domainAfterAmp s = s.toList := by
    unfold domainAfterAmp
    rw [splitOnAmp_no_amp s.toList hs]
    rfl
  refine ⟨hd, ?_⟩
  obtain ⟨h1, _⟩ := analyze_headers_eq PhishingDetector.init [("from", s), ("reply-to", t)]
  rw [h1]
  rw [show getVal [("from", s), ("reply-to", t)] "from" = s from rfl,
    show getVal [("from", s), ("reply-to", t)] "reply-to" = t from rfl, hd,
    show (hasKey [("from", s), ("reply-to", t)] "from" &&
      hasKey [("from", s), ("reply-to", t)] "reply-to") = true from rfl,
    show hasKey [("from", s), ("reply-to", t)] "from" = true from rfl,
    show (important_headers.filter
      (fun k => !hasKey [("from", s), ("reply-to", t)] k)).length = 3 from rfl,
    show PhishingDetector.init.suspicious_sender_patterns
      = suspicious_sender_patterns from rfl]
  norm_num

/-- Witness for the amended C4, at from-value "alice" (no `@`) and
reply-to "bob@x.com". -/
theorem C4_no_amp_whole_value_witness :
    domainAfterAmp "alice" = "alice".toList ∧
    (PhishingDetector.init.analyze_headers [("from", "alice"), ("reply-to", "bob@x.com")]).1 =
      (if "alice".toList ≠ domainAfterAmp "bob@x.com" then (0.4:ℚ) else 0)
      + 0.3 * ((suspicious_sender_patterns.filter
          (fun p => p.2 (lowerStr "alice".toList))).length : ℚ)
      + 0.6 :=
  C4_no_amp_whole_value "alice" "bob@x.com" (by decide)

/-- C8: a call to analyze_message is deterministic and stateless — it
leaves the detector object (hence the three static rule tables) unchanged,
and a repeated call with identical arguments returns an identical result
(the same report, or identically the propagated ValueError on the
exception path, which also does not touch the object). -/
theorem C8_stateless (self : PhishingDetector) (text : String)
    (headers : Option Headers) :
    (analyzeMessageCall self text headers).1 =
        (analyzeMessageCall (analyzeMessageCall self text headers).2 text headers).1 ∧
    (analyzeMessageCall self text headers).2 = self ∧
    (analyzeMessageCall self text headers).2.suspicious_keywords = self.suspicious_keywords ∧
    (analyzeMessageCall self text headers).2.suspicious_tlds = self.suspicious_tlds ∧
    (analyzeMessageCall self text headers).2.suspicious_sender_patterns =
        self.suspicious_sender_patterns :=
  ⟨rfl, rfl, rfl, rfl, rfl⟩

/-- C9: an empty header mapping behaves exactly like absent headers on
every input — the results coincide (both also on the exception path), and
whenever a report is produced its header_analysis stays empty and the
header component of the overall score is 0 (the 0.2-per-missing-header
penalties are not applied). -/
theorem C9_empty_headers (text : String) :
    PhishingDetector.init.analyze_message text (some []) =
      PhishingDetector.init.analyze_message text none ∧
    ∀ r, PhishingDetector.init.analyze_message text (some []) = some r →
      r.header_analysis = none ∧
      r.overall_risk_score =
        min ((r.url_analysis.map URLFinding.risk_score).sum
          + (PhishingDetector.init.analyze_keywords text).1 + 0) 1 := by
  constructor
  · cases hu : PhishingDetector.init.analyze_urls text with
    | none => simp [PhishingDetector.analyze_message, hu]
    | some fs =>
      simp only [PhishingDetector.analyze_message, hu, Option.map_some']
      rfl
  · intro r h
    obtain ⟨fs, hfs, rfl⟩ := (analyze_message_some _ _ _ _).mp h
    exact ⟨rfl, rfl⟩

/-- Witness for C9 at a report-producing input. -/
theorem C9_empty_headers_witness :
    (theReport (PhishingDetector.init.analyze_message
        "urgent" (some []))).header_analysis = none ∧
    (theReport (PhishingDetector.init.analyze_message
        "urgent" (some []))).overall_risk_score =
      min (((theReport (PhishingDetector.init.analyze_message
            "urgent" (some []))).url_analysis.map URLFinding.risk_score).sum
        + (PhishingDetector.init.analyze_keywords "urgent").1 + 0) 1 :=
  (C9_empty_headers "urgent").2 _ rfl

/-- Closed form of the per-URL scoring body: the four checks contribute
independent increments and reasons. -/
theorem mkURLFinding_eq (tlds : List String) (u : Str) :
    (mkURLFinding tlds u).risk_score =
      0.4 * ((tlds.filter (fun t => t.toList.isSuffixOf (lowerStr (netlocOf u)))).length : ℚ)
        + (if isDottedQuad (netlocOf u) then (0.5:ℚ) else 0)
        + (if 2 < (netlocOf u).count '.' then (0.3:ℚ) else 0)
        + (if u.contains '%' then (0.3:ℚ) else 0) ∧
    (mkURLFinding tlds u).reasons =
      (tlds.filter (fun t => t.toList.isSuffixOf (lowerStr (netlocOf u)))).map
          (fun t => "Suspicious TLD: " ++ t)
        ++ (if isDottedQuad (netlocOf u) then ["IP address used instead of domain name"] else [])
        ++ (if 2 < (netlocOf u).count '.' then ["Multiple subdomains detected"] else [])
        ++ (if u.contains '%' then ["URL contains encoded characters"] else []) := by
  simp only [mkURLFinding, tldScan_eq, decide_eq_true_eq]
  refine ⟨?_, ?_⟩ <;> trivial

/-- Consuming `\\d+.` removes exactly one dot. -/
theorem digitsThenDot_count (l r : Str) (h : digitsThenDot l = some r) :
    l.count '.' = r.count '.' + 1 := by
  unfold digitsThenDot at h
  rw [List.span_eq_take_drop] at h
  rcases htw : l.takeWhile Char.isDigit with _ | ⟨c, cs⟩ <;> rw [htw] at h
  · simp at h
  · rcases hdw : l.dropWhile Char.isDigit with _ | ⟨d, ds⟩ <;> rw [hdw] at h
    · simp at h
    · by_cases hd : d = '.'
      · simp only [if_pos hd, Option.some.injEq] at h
        subst hd
        subst h
        have hl := List.takeWhile_append_dropWhile Char.isDigit l
        have h0 : (c :: cs).count '.' = 0 := by
          apply List.count_eq_zero.mpr
          intro hm
          rw [← htw] at hm
          exact absurd (List.mem_takeWhile_imp hm) (by decide)
        calc l.count '.'
            = ((l.takeWhile Char.isDigit) ++ l.dropWhile Char.isDigit).count '.' := by
              rw [hl]
          _ = (c :: cs).count '.' + ('.' :: ds).count '.' := by
              rw [htw, hdw, List.count_append]
          _ = ds.count '.' + 1 := by
              rw [h0, List.count_cons_self]
              omega
      · simp only [if_neg hd] at h
        exact absurd h (by simp)

/-- A trailing all-digit run contains no dot. -/
theorem digitsEnd_count (l : Str) (h : digitsEnd l = true) : l.count '.' = 0 := by
  unfold digitsEnd at h
  rw [List.span_eq_take_drop] at h
  simp only [Bool.and_eq_true, List.isEmpty_iff] at h
  have hl := List.takeWhile_append_dropWhile Char.isDigit l
  rw [h.2, List.append_nil] at hl
  have hc : l.count '.' = (l.takeWhile Char.isDigit).count '.' := by
    conv_lhs => rw [← hl]
  rw [hc]
  apply List.count_eq_zero.mpr
  intro hm
  exact absurd (List.mem_takeWhile_imp hm) (by decide)

/-- A dotted-quad netloc contains exactly three dots. -/
theorem isDottedQuad_count (l : Str) (h : isDottedQuad l = true) : l.count '.' = 3 := by
  unfold isDottedQuad at h
  rcases h1 : digitsThenDot l with _ | l1
  · simp only [h1] at h
    exact absurd h (by decide)
  · simp only [h1] at h
    rcases h2 : digitsThenDot l1 with _ | l2
    · simp only [h2] at h
      exact absurd h (by decide)
    · simp only [h2] at h
      rcases h3 : digitsThenDot l2 with _ | l3
      · simp only [h3] at h
        exact absurd h (by decide)
      · simp only [h3] at h
        have e1 := digitsThenDot_count l l1 h1
        have e2 := digitsThenDot_count l1 l2 h2
        have e3 := digitsThenDot_count l2 l3 h3
        have e4 := digitsEnd_count l3 h
        omega


/-- C6, counterexample: the claim says analyze_urls returns one finding
per extracted URL for every input text; but the extraction regex admits
`[` and `]`, and `urlparse` raises ValueError ("Invalid IPv6 URL") on the
URL `http://[x` extracted from plain ASCII text, so analyze_urls raises
and returns nothing although one URL was extracted. -/
theorem C6_counterexample :
    findUrls "see http://[x now" = ["http://[x".toList] ∧
    PhishingDetector.init.analyze_urls "see http://[x now" = none :=
  ⟨rfl, rfl⟩

/-- C6, amended: when every extracted URL passes urlparse's netloc
validation, analyze_urls returns one URLFinding per extracted URL
occurrence in order of first appearance (no deduplication; a text with no
URLs yields the empty sequence, not an error); any returned findings are
exactly that, and each finding's risk_score is the sum of the independent
increments +0.4 per matching suspicious TLD suffix of the lower-cased
domain, +0.5 for a bare dotted-quad netloc, +0.3 for more than two
literal dots in the netloc, and +0.3 for a `%` in the raw URL, with one
reason per matched rule; when some extracted URL fails the validation,
analyze_urls raises ValueError instead of returning. -/
theorem C6_url_contract (text : String) :
    ((∀ u ∈ findUrls text, (urlparseNetloc u).isSome = true) →
      PhishingDetector.init.analyze_urls text =
        some ((findUrls text).map (mkURLFinding suspicious_tlds))) ∧
    (∀ fs, PhishingDetector.init.analyze_urls text = some fs →
      fs = (findUrls text).map (mkURLFinding suspicious_tlds)) ∧
    (findUrls text = [] → PhishingDetector.init.analyze_urls text = some []) ∧
    ∀ fs, PhishingDetector.init.analyze_urls text = some fs → ∀ f ∈ fs,
      f.risk_score =
        0.4 * ((suspicious_tlds.filter
            (fun t => t.toList.isSuffixOf (lowerStr (netlocOf f.url)))).length : ℚ)
          + (if isDottedQuad (netlocOf f.url) then (0.5:ℚ) else 0)
          + (if 2 < (netlocOf f.url).count '.' then (0.3:ℚ) else 0)
          + (if f.url.contains '%' then (0.3:ℚ) else 0) ∧
      f.reasons =
        (suspicious_tlds.filter
            (fun t => t.toList.isSuffixOf (lowerStr (netlocOf f.url)))).map
            (fun t => "Suspicious TLD: " ++ t)
          ++ (if isDottedQuad (netlocOf f.url) then
                ["IP address used instead of domain name"] else [])
          ++ (if 2 < (netlocOf f.url).count '.' then
                ["Multiple subdomains detected"] else [])
          ++ (if f.url.contains '%' then
                ["URL contains encoded characters"] else []) := by
  refine ⟨fun h => ?_, fun fs h => ?_, fun h => ?_, fun fs h f hf => ?_⟩
  · exact urlsLoop_all_some _ _ h
  · exact urlsLoop_ok_map _ _ _ h
  · simp only [PhishingDetector.analyze_urls, h]
    rfl
  · have hm := urlsLoop_ok_map _ _ _ h
    subst hm
    obtain ⟨u, hu, rfl⟩ := List.mem_map.mp hf
    rw [show (mkURLFinding PhishingDetector.init.suspicious_tlds u).url
      = u from rfl]
    exact mkURLFinding_eq _ u

/-- Witness for the amended C6: the URL `http://a.b.c.tk/%41` extracted
from a message scores 0.4 (TLD .tk) + 0.3 (three dots) + 0.3 (percent)
= 1. -/
theorem C6_url_contract_witness :
    (mkURLFinding suspicious_tlds "http://a.b.c.tk/%41".toList).risk_score = 1 := by
  have h := ((C6_url_contract "go to http://a.b.c.tk/%41 now").2.2.2
      [mkURLFinding suspicious_tlds "http://a.b.c.tk/%41".toList] rfl
      (mkURLFinding suspicious_tlds "http://a.b.c.tk/%41".toList)
      (List.mem_singleton.mpr rfl)).1
  rw [h]
  rw [show (mkURLFinding suspicious_tlds "http://a.b.c.tk/%41".toList).url
      = "http://a.b.c.tk/%41".toList from rfl,
    show netlocOf "http://a.b.c.tk/%41".toList = "a.b.c.tk".toList from rfl,
    show (suspicious_tlds.filter (fun t => t.toList.isSuffixOf
      (lowerStr "a.b.c.tk".toList))).length = 1 from rfl,
    show isDottedQuad "a.b.c.tk".toList = false from rfl,
    show ("a.b.c.tk".toList).count '.' = 3 from rfl,
    show ("http://a.b.c.tk/%41".toList).contains '%' = true from rfl]
  norm_num

/-- C10: a finding of a successful URL analysis whose netloc is a bare
dotted-quad IPv4 literal also fires the multiple-subdomains check (three
dots exceed two), so its risk score is at least 0.8. -/
theorem C10_ip_floor (text : String) (fs : List URLFinding) (f : URLFinding)
    (hfs : PhishingDetector.init.analyze_urls text = some fs) (hf : f ∈ fs)
    (hip : isDottedQuad (netlocOf f.url) = true) :
    2 < (netlocOf f.url).count '.' ∧ (0.8:ℚ) ≤ f.risk_score := by
  have hm := urlsLoop_ok_map _ _ _ hfs
  subst hm
  obtain ⟨u, hu, rfl⟩ := List.mem_map.mp hf
  rw [show (mkURLFinding PhishingDetector.init.suspicious_tlds u).url
    = u from rfl] at hip ⊢
  have hcount : (netlocOf u).count '.' = 3 := isDottedQuad_count _ hip
  have hlt : 2 < (netlocOf u).count '.' := by omega
  refine ⟨hlt, ?_⟩
  obtain ⟨hs, _⟩ := mkURLFinding_eq PhishingDetector.init.suspicious_tlds u
  rw [hs, if_pos hip, if_pos hlt]
  have ht : (0:ℚ) ≤ 0.4 * ((PhishingDetector.init.suspicious_tlds.filter
      (fun t => t.toList.isSuffixOf (lowerStr (netlocOf u)))).length : ℚ) := by
    positivity
  have hp : (0:ℚ) ≤ if u.contains '%' = true then (0.3:ℚ) else 0 := by
    split <;> norm_num
  linarith

/-- Witness for C10 at the URL `http://1.2.3.4/x`. -/
theorem C10_ip_floor_witness :
    2 < (netlocOf (mkURLFinding suspicious_tlds
      "http://1.2.3.4/x".toList).url).count '.' ∧
    (0.8:ℚ) ≤ (mkURLFinding suspicious_tlds
      "http://1.2.3.4/x".toList).risk_score := by
  apply C10_ip_floor "see http://1.2.3.4/x ok"
      [mkURLFinding suspicious_tlds "http://1.2.3.4/x".toList]
  · rfl
  · exact List.mem_singleton.mpr rfl
  · rfl

end Phishing
